import Mathlib

/-!
Verification of the Daily Quality Report generator (src/main.py, src/pdf_generator.py,
src/config.py, src/drive_client.py, src/sheets_client.py) against its specification.

Shallow embedding conventions:
* Python strings are `List Char` (`Str`); a sheet cell may hold a string or a list of
  strings (`CellVal`), as in the source.
* The local filesystem is a partial map from paths to `FileInfo`; a `FileInfo` records
  exactly the oracles the code consults: whether `PIL.Image.open(...).verify()` succeeds,
  and the pixel size `PIL.Image.open(...).size` reports (`none` when opening raises).
* Remote downloads (drive_client.download_drive_file) are modelled by an environment
  mapping each file id to an outcome: a completed file, or an exception with an optional
  partially written file left at the destination (`open(save_path, "wb")` has already
  created/truncated the file when the download raises mid-stream).
* Real arithmetic from reportlab (Python floats) is modelled over `ℚ`.
-/

-- ==================== strings and paths ====================

/-- Python strings, as lists of characters. -/
abbrev Str := List Char

/-- What the code can observe about a file on disk: whether `PIL.Image.open` + `verify()`
succeeds on it, and the `(width, height)` that `PIL.Image.open(...).size` reports
(`none` models `Image.open` raising, e.g. on a non-image byte stream). -/
structure FileInfo where
  verifies : Bool
  size : Option (Nat × Nat)
deriving DecidableEq

/-- The local filesystem: `none` means the path does not exist (`os.path.exists` false). -/
abbrev FS := Str → Option FileInfo

/-- Writing (or deleting, with `v = none`) a single path. -/
def updateFS (fs : FS) (p : Str) (v : Option FileInfo) : FS :=
  fun q => if q = p then v else fs q

/-- Characters stripped by Python `str.strip()`. -/
def isSpaceChar (c : Char) : Bool :=
  c == ' ' || c == '\t' || c == '\n' || c == '\r' || c == Char.ofNat 11 || c == Char.ofNat 12

/-- Python `str.strip()`. -/
def pyStrip (s : Str) : Str :=
  ((s.dropWhile isSpaceChar).reverse.dropWhile isSpaceChar).reverse

/-- Python `str.lower()` (the sources only ever lowercase ASCII). -/
def lowerStr (s : Str) : Str := s.map Char.toLower

/-- `os.path.basename`. -/
def basenameOf (p : Str) : Str :=
  (p.reverse.takeWhile (fun c => c != '/')).reverse

/-- `os.path.dirname`. -/
def dirnameOf (p : Str) : Str :=
  ((p.reverse.dropWhile (fun c => c != '/')).drop 1).reverse

/-- The extension (with its leading dot) that `os.path.splitext` reports, `[]` when there
is none. Leading dots of the basename never start an extension. -/
def extOf (p : Str) : Str :=
  let b := basenameOf p
  let rest := b.dropWhile (fun c => c = '.')
  let e := (rest.reverse.takeWhile (fun c => c != '.')).reverse
  if e.length = rest.length then [] else '.' :: e

/-- The stem of the basename, i.e. `os.path.splitext(os.path.basename(p))[0]`. -/
def stemOf (p : Str) : Str :=
  let b := basenameOf p
  b.take (b.length - (extOf p).length)

/-- `os.path.join` as used by the sources (always one separator, relative components). -/
def pathJoin (a b : Str) : Str := a ++ ('/' :: b)

/-- Decimal digits of a natural number, for Python f-string interpolation of indices. -/
def natDigits (n : Nat) : Str := Nat.toDigits 10 n

/-- Python `needle in hay` substring test. -/
def containsSub (needle : Str) : Str → Bool
  | [] => needle.isEmpty
  | c :: rest => needle.isPrefixOf (c :: rest) || containsSub needle rest

/-- Python string `<=` (lexicographic on code points), as used by `sorted(...)` through
its comparisons of the lowered keys. -/
def lexLe : Str → Str → Bool
  | [], _ => true
  | _ :: _, [] => false
  | a :: as, b :: bs =>
    if a.toNat < b.toNat then true
    else if b.toNat < a.toNat then false
    else lexLe as bs

-- ==================== src/config.py ====================

/-- config.VALID_IMAGE_EXTENSIONS. -/
def VALID_IMAGE_EXTENSIONS : List Str :=
  [(".jpg").toList, (".jpeg").toList, (".png").toList, (".gif").toList,
   (".bmp").toList, (".tiff").toList, (".webp").toList]

/-- config.PLACEHOLDER_IMAGE (with the default `ASSETS_DIR`). -/
def PLACEHOLDER_IMAGE : Str := ("assets/not_uploaded.png").toList

/-- `reportlab.lib.units.inch` (points per inch). -/
def inchPts : ℚ := 72

/-- config.CM_TO_INCH. -/
def CM_TO_INCH : ℚ := 1 / 2.54

/-- config.PRODUCT_IMAGE_WIDTH (inches). -/
def PRODUCT_IMAGE_WIDTH : ℚ := 5.77 * CM_TO_INCH

/-- config.PRODUCT_IMAGE_HEIGHT (inches). -/
def PRODUCT_IMAGE_HEIGHT : ℚ := 7.7 * CM_TO_INCH

/-- config.OVERALL_IMAGE_WIDTH (inches). -/
def OVERALL_IMAGE_WIDTH : ℚ := 9.44 * CM_TO_INCH

/-- config.OVERALL_IMAGE_HEIGHT (inches). -/
def OVERALL_IMAGE_HEIGHT : ℚ := 7.07 * CM_TO_INCH

-- ==================== src/main.py : utilities ====================

/-- The character class `[a-zA-Z0-9_-]` of the file-id regexes in main.extract_file_id. -/
def isIdChar (c : Char) : Bool :=
  (('a' ≤ c) && (c ≤ 'z')) || (('A' ≤ c) && (c ≤ 'Z')) || (('0' ≤ c) && (c ≤ '9')) ||
    (c == '_') || (c == '-')

/-- `re.search` for a pattern of the shape `<literal>([a-zA-Z0-9_-]+)`, which is the shape
of all four patterns in main.extract_file_id: the leftmost position where the literal
occurs followed by at least one id character wins, and the group is the maximal (greedy)
run of id characters after the literal. -/
def searchPat (lit : Str) : Str → Option Str
  | [] => none
  | c :: rest =>
    if lit.isPrefixOf (c :: rest) && !(List.takeWhile isIdChar (List.drop lit.length (c :: rest))).isEmpty
    then some (List.takeWhile isIdChar (List.drop lit.length (c :: rest)))
    else searchPat lit rest

/-- main.extract_file_id: try the four URL patterns in order, first match wins; empty
input (Python falsy) gives `None`. -/
def extract_file_id (url : Str) : Option Str :=
  if url.isEmpty then none
  else
    match searchPat ("/d/").toList url with
    | some g => some g
    | none =>
      match searchPat ("id=").toList url with
      | some g => some g
      | none =>
        match searchPat ("/uc?id=").toList url with
        | some g => some g
        | none => searchPat ("open?id=").toList url

/-- main.extract_product_name: `column_name.split("–")[0].strip()` (en-dash). -/
def extract_product_name (column_name : Str) : Str :=
  pyStrip (column_name.takeWhile (fun c => c != '–'))

/-- Digits accepted by `datetime.strptime`. -/
def isDigitChar (c : Char) : Bool := c.isDigit

/-- Decimal value of a digit string. -/
def strToNat (s : Str) : Nat := s.foldl (fun acc c => acc * 10 + (c.toNat - 48)) 0

/-- Left-pad with zeros to width `k` (strftime zero padding). -/
def padZeros (k : Nat) (s : Str) : Str := List.replicate (k - s.length) '0' ++ s

/-- Gregorian leap year, as `datetime` uses for date validation. -/
def isLeapYear (y : Nat) : Bool := (y % 4 == 0 && y % 100 != 0) || (y % 400 == 0)

/-- Days in a month, as `datetime` uses for date validation. -/
def daysInMonth (m y : Nat) : Nat :=
  if m == 2 then (if isLeapYear y then 29 else 28)
  else if m == 4 || m == 6 || m == 9 || m == 11 then 30
  else 31

/-- main.normalize_date: `datetime.strptime(str(val).strip(), "%m/%d/%Y").strftime("%Y-%m-%d")`;
any parse failure is caught and normalises to the empty string. strptime's `%m` and `%d`
match one or two digits, `%Y` exactly four; `datetime` additionally requires `year ≥ 1`
and a real calendar day. -/
def normalize_date (val : Str) : Str :=
  let s := pyStrip val
  match List.splitOn '/' s with
  | [ms, ds, ys] =>
    if !ms.isEmpty && !ds.isEmpty &&
       decide (ms.length ≤ 2) && decide (ds.length ≤ 2) && decide (ys.length = 4) &&
       ms.all isDigitChar && ds.all isDigitChar && ys.all isDigitChar then
      let m := strToNat ms
      let d := strToNat ds
      let y := strToNat ys
      if decide (1 ≤ y) && decide (1 ≤ m) && decide (m ≤ 12) && decide (1 ≤ d) &&
         decide (d ≤ daysInMonth m y) then
        padZeros 4 (natDigits y) ++ ('-' :: padZeros 2 (natDigits m)) ++ ('-' :: padZeros 2 (natDigits d))
      else []
    else []
  | _ => []

-- ==================== src/main.py : validate_image_file ====================

/-- main.validate_image_file: the path must exist, the extension of the lowercased path
must be in the allow-list, and `PIL.Image.open` + `verify()` must succeed. -/
def validate_image_file (fs : FS) (file_path : Str) : Bool :=
  match fs file_path with
  | none => false
  | some fi =>
    if (VALID_IMAGE_EXTENSIONS.contains (extOf (lowerStr file_path))) = false then false
    else fi.verifies

-- ==================== src/main.py : download and resolve ====================

/-- Outcome of one `drive_client.download_drive_file` call: either the full file content
arrives at the destination, or an exception is raised with an optional partially written
file left at the destination. -/
inductive DownloadOutcome where
  | ok (fi : FileInfo)
  | fail (leftover : Option FileInfo)
deriving DecidableEq

/-- The remote store collaborator: outcome of downloading each file id. -/
abbrev DriveEnv := Str → DownloadOutcome

/-- Result of main.download_and_validate_image: the filesystem afterwards, the returned
`(success, path)` pair. -/
structure DLResult where
  fs : FS
  ok : Bool
  path : Str

/-- main.download_and_validate_image: download into `save_path`; on success validate, and
if validation fails delete the file (after an existence check) and fall back; if the
download raises, fall back without touching the destination (the except branch performs
no deletion). -/
def download_and_validate_image (oc : DownloadOutcome) (fs : FS) (save_path : Str) : DLResult :=
  match oc with
  | DownloadOutcome.ok fi =>
    let fs1 := updateFS fs save_path (some fi)
    if validate_image_file fs1 save_path then ⟨fs1, true, save_path⟩
    else ⟨if (fs1 save_path).isSome then updateFS fs1 save_path none else fs1,
          false, PLACEHOLDER_IMAGE⟩
  | DownloadOutcome.fail leftover =>
    ⟨updateFS fs save_path leftover, false, PLACEHOLDER_IMAGE⟩

/-- A raw sheet cell as main.process_image_column receives it: a string, or a
multi-value cell (list of strings). -/
inductive CellVal where
  | str (s : Str)
  | list (l : List Str)
deriving DecidableEq

/-- The cell normalisation at the top of main.process_image_column: a list cell becomes
its first truthy (non-empty) element, defaulting to the empty string. -/
def normalizeCell : CellVal → Str
  | CellVal.str s => s
  | CellVal.list l => (l.find? (fun x => !x.isEmpty)).getD []

/-- Result of main.process_image_column: the filesystem afterwards, the returned path,
and whether `download_drive_file` was invoked at all. -/
structure ResolveOut where
  fs : FS
  path : Str
  attempted : Bool

/-- main.process_image_column: normalise the cell, strip it; an empty link or an
unextractable file id falls back to the placeholder with no download; otherwise download
and validate. -/
def process_image_column (drive : DriveEnv) (fs : FS) (cell : CellVal) (save_path : Str) :
    ResolveOut :=
  let link := pyStrip (normalizeCell cell)
  if link.isEmpty then ⟨fs, PLACEHOLDER_IMAGE, false⟩
  else
    match extract_file_id link with
    | none => ⟨fs, PLACEHOLDER_IMAGE, false⟩
    | some fid =>
      let r := download_and_validate_image (drive fid) fs save_path
      ⟨r.fs, r.path, true⟩

-- ==================== src/main.py : process_store_images ====================

/-- The overall-photo loop of main.process_store_images: one download per overall column,
destinations `Overall_1.jpg`, `Overall_2.jpg`, ... in the store directory. -/
def processOverall (drive : DriveEnv) (row : Str → CellVal) (store_dir : Str) :
    FS → Nat → List Str → FS × List Str
  | fs, _, [] => (fs, [])
  | fs, idx, col :: cols =>
    let save_path := pathJoin store_dir (("Overall_").toList ++ natDigits idx ++ (".jpg").toList)
    let r := process_image_column drive fs (row col) save_path
    let rest := processOverall drive row store_dir r.fs (idx + 1) cols
    (rest.1, r.path :: rest.2)

/-- The product loop of main.process_store_images: one download per product column,
destination `<product>.jpg` in the store directory, collecting `(product, path)` pairs. -/
def processProducts (drive : DriveEnv) (row : Str → CellVal) (store_dir : Str) :
    FS → List Str → FS × List (Str × Str)
  | fs, [] => (fs, [])
  | fs, col :: cols =>
    let product := extract_product_name col
    let save_path := pathJoin store_dir (product ++ (".jpg").toList)
    let r := process_image_column drive fs (row col) save_path
    let rest := processProducts drive row store_dir r.fs cols
    (rest.1, (product, r.path) :: rest.2)

/-- The comparison performed by `sorted(product_images, key=lambda x: x[0].lower())`. -/
def prodLe (a b : Str × Str) : Bool := lexLe (lowerStr a.1) (lowerStr b.1)

/-- main.process_store_images: overall photos, then product photos, then the products
sorted case-insensitively by label (Python `sorted` is a stable merge sort). -/
def process_store_images (drive : DriveEnv) (row : Str → CellVal) (store_dir : Str)
    (fs : FS) (overall_columns product_columns : List Str) :
    FS × List Str × List (Str × Str) :=
  let r1 := processOverall drive row store_dir fs 1 overall_columns
  let r2 := processProducts drive row store_dir r1.1 product_columns
  (r2.1, r1.2, (r2.2).mergeSort prodLe)

/-- main lines 210-213: overall-photo columns are the headers containing both "overall"
and "photo" case-insensitively, sorted case-insensitively. -/
def overall_columns_of (cols : List Str) : List Str :=
  (cols.filter (fun c =>
    containsSub ("overall").toList (lowerStr c) && containsSub ("photo").toList (lowerStr c))).mergeSort
    (fun a b => lexLe (lowerStr a) (lowerStr b))

/-- main lines 217-221: product columns are the headers containing "take a clear photo"
case-insensitively that are not already overall columns. -/
def product_columns_of (cols : List Str) : List Str :=
  let ov := overall_columns_of cols
  cols.filter (fun c =>
    containsSub ("take a clear photo").toList (lowerStr c) && !(ov.contains c))

-- ==================== src/pdf_generator.py : overlay ====================

/-- Failure oracle for pdf_generator.overlay_text_on_image: whether `cv2.imread` returns
`None` for a readable path, or any OpenCV call in the try block raises. -/
structure RenderEnv where
  overlayFails : Str → Bool

/-- pdf_generator.overlay_text_on_image: a missing/unreadable source or any rendering
error returns the original path; otherwise the composited copy is written to
`output_path` (same pixel size as the source, a well-formed image) and that path is
returned. -/
def overlay_text_on_image (env : RenderEnv) (fs : FS) (image_path output_path : Str) :
    FS × Str :=
  match fs image_path with
  | none => (fs, image_path)
  | some fi =>
    if env.overlayFails image_path then (fs, image_path)
    else (updateFS fs output_path (some ⟨true, fi.size⟩), output_path)

/-- pdf_generator.create_image_with_overlay: a nonexistent path or the placeholder is
returned unchanged (the placeholder is never labeled); otherwise the overlay is written
to `<temp_dir>/<parent_dir>_<stem>_overlay<ext>`. -/
def create_image_with_overlay (env : RenderEnv) (fs : FS)
    (img_path product_name temp_dir : Str) : FS × Str :=
  if (fs img_path).isNone || img_path == PLACEHOLDER_IMAGE then (fs, img_path)
  else
    let parent_dir := basenameOf (dirnameOf img_path)
    let temp_filename :=
      parent_dir ++ ('_' :: stemOf img_path) ++ ("_overlay").toList ++ extOf img_path
    overlay_text_on_image env fs img_path (pathJoin temp_dir temp_filename)

-- ==================== src/pdf_generator.py : scaled_image ====================

/-- A cell of a reportlab table: a placed `Image` flowable with its display width/height
in points, a `Paragraph` (the textual placeholders), or the empty string used to pad
grid rows. -/
inductive Cell where
  | image (path : Str) (w h : ℚ)
  | text (s : Str)
  | blank
deriving DecidableEq

/-- pdf_generator.scaled_image. A missing/empty path gives the `[No Image Available]`
paragraph; a file `PIL` cannot open (or whose reported size would make Python's division
raise) gives the `[Image Error]` paragraph; otherwise the image is placed with
`scale = min(max_w*inch/w, max_h*inch/h)` applied to both dimensions. -/
def scaled_image (fs : FS) (img_path : Str) (max_w max_h : ℚ) (maintain_aspect : Bool) : Cell :=
  if img_path.isEmpty then Cell.text ("[No Image Available]").toList
  else
    match fs img_path with
    | none => Cell.text ("[No Image Available]").toList
    | some fi =>
      match fi.size with
      | none => Cell.text ("[Image Error]").toList
      | some (w, h) =>
        if w == 0 || h == 0 then Cell.text ("[Image Error]").toList
        else if maintain_aspect then
          let scale := min (max_w * inchPts / (w : ℚ)) (max_h * inchPts / (h : ℚ))
          Cell.image img_path ((w : ℚ) * scale) ((h : ℚ) * scale)
        else Cell.image img_path (max_w * inchPts) (max_h * inchPts)

-- ==================== src/pdf_generator.py : page elements ====================

/-- The metadata dict assembled per store in main.main. -/
structure StoreMeta where
  store_name : Str
  name : Str
  phone : Str
  date : Str
deriving DecidableEq

/-- One entry of `all_stores_data`. -/
structure StoreData where
  meta : StoreMeta
  overall_images : List Str
  product_images : List (Str × Str)
deriving DecidableEq

/-- A reportlab flowable appended to `elements`. -/
inductive Element where
  | para (s : Str)
  | spacer (w h : ℚ)
  | table (rows : List (List Cell))
  | pageBreak
deriving DecidableEq

/-- Whether an element is a `Table` flowable. -/
def Element.isTable : Element → Bool
  | Element.table _ => true
  | _ => false

/-- The header block of one store section (markup elided). -/
def headerElements (meta : StoreMeta) : List Element :=
  [Element.para (("STORE: ").toList ++ meta.store_name),
   Element.para (("Name: ").toList ++ meta.name ++ (" Phone: ").toList ++ meta.phone ++
     (" Date: ").toList ++ meta.date),
   Element.spacer 1 20]

/-- The two-cell overall row built inside the `len(overall_images) >= 2` branch
(pdf_generator lines 216-226): for each of the two indices, the scaled image when the
index is in range, the empty cell otherwise. -/
def overallRow (fs : FS) (overall_images : List Str) : List Cell :=
  (List.range 2).map (fun idx =>
    if idx < overall_images.length then
      scaled_image fs (overall_images.getD idx []) OVERALL_IMAGE_WIDTH OVERALL_IMAGE_HEIGHT true
    else Cell.blank)

/-- The overall-photos section (pdf_generator lines 213-244): emitted only when
`overall_images and len(overall_images) >= 2`. -/
def overallSection (fs : FS) (overall_images : List Str) : List Element :=
  if ¬overall_images.isEmpty ∧ 2 ≤ overall_images.length then
    [Element.table [overallRow fs overall_images], Element.spacer 1 25]
  else []

/-- The row-wrapping loop of the product grid (pdf_generator lines 249-270): cells
accumulate into `current_row`, every full row of 3 is flushed, and a final incomplete
row is padded with empty cells. Generic in the cell type with an explicit pad value. -/
def chunkRows {α : Type} (pad : α) : List α → List α → List (List α)
  | [], current =>
    if current.isEmpty then [] else [current ++ List.replicate (3 - current.length) pad]
  | x :: xs, current =>
    let cur := current ++ [x]
    if cur.length = 3 then cur :: chunkRows pad xs [] else chunkRows pad xs cur

/-- The per-product cell construction (pdf_generator lines 251-258): overlay the label,
then scale into the product bounding box; threads the filesystem through the overlay
writes. -/
def productCells (env : RenderEnv) (temp_dir : Str) :
    FS → List (Str × Str) → FS × List Cell
  | fs, [] => (fs, [])
  | fs, (product_name, img_path) :: rest =>
    let o := create_image_with_overlay env fs img_path product_name temp_dir
    let cell := scaled_image o.1 o.2 PRODUCT_IMAGE_WIDTH PRODUCT_IMAGE_HEIGHT true
    let r := productCells env temp_dir o.1 rest
    (r.1, cell :: r.2)

/-- The product-grid section (pdf_generator lines 246-292): nothing when there are no
product images, otherwise one table of the wrapped rows. -/
def productSection (env : RenderEnv) (temp_dir : Str) (fs : FS)
    (product_images : List (Str × Str)) : FS × List Element :=
  if product_images.isEmpty then (fs, [])
  else
    let r := productCells env temp_dir fs product_images
    let rows := chunkRows Cell.blank r.2 []
    if rows.isEmpty then (r.1, []) else (r.1, [Element.table rows])

/-- The elements of one store section (pdf_generator lines 197-292): header, overall
section, product grid. -/
def storeElements (env : RenderEnv) (temp_dir : Str) (fs : FS) (sd : StoreData) :
    FS × List Element :=
  let r := productSection env temp_dir fs sd.product_images
  (r.1, headerElements sd.meta ++ overallSection fs sd.overall_images ++ r.2)

/-- All stores' elements with a page break between consecutive stores and none after the
last (pdf_generator lines 294-296). -/
def allElements (env : RenderEnv) (temp_dir : Str) :
    FS → List StoreData → FS × List Element
  | fs, [] => (fs, [])
  | fs, [sd] => storeElements env temp_dir fs sd
  | fs, sd :: rest =>
    let r := storeElements env temp_dir fs sd
    let r2 := allElements env temp_dir r.1 rest
    (r2.1, r.2 ++ (Element.pageBreak :: r2.2))

-- ==================== src/pdf_generator.py : build and cleanup ====================

/-- Failure oracles for the document finalisation: whether `doc.build(elements)` raises,
and whether `shutil.rmtree(temp_dir)` raises. -/
structure BuildEnv where
  buildRaises : Bool
  cleanupRaises : Bool
deriving DecidableEq

/-- Observable outcome of one generate_daily_report_pdf call. -/
structure RunResult where
  raised : Bool
  cleanupAttempted : Bool
  tempDirRemoved : Bool
  elements : List Element
deriving DecidableEq

/-- The effect skeleton of pdf_generator.generate_daily_report_pdf (lines 154-309): the
element list for all stores is assembled, `doc.build(elements)` runs — if it raises the
exception propagates immediately and nothing after it runs — and only then does the
`try: shutil.rmtree(temp_dir) except: print(...)` cleanup run; a cleanup error is caught
and never re-raised. -/
def generate_daily_report_run (benv : BuildEnv) (env : RenderEnv) (fs : FS)
    (temp_dir : Str) (stores : List StoreData) : RunResult :=
  let elems := (allElements env temp_dir fs stores).2
  if benv.buildRaises then ⟨true, false, false, elems⟩
  else ⟨false, true, !benv.cleanupRaises, elems⟩

-- ==================== src/main.py : the dataframe step (lines 199-201) ====================

/-- The sheet table, column-major as a pandas DataFrame exposes it: ordered columns, each
a header with its cell values. -/
abbrev Table := List (Str × List Str)

/-- `df.columns`. -/
def tableCols (df : Table) : List Str := df.map Prod.fst

/-- `df[c]`: the values of the first column named `c`. -/
def getCol (df : Table) (c : Str) : List Str :=
  ((df.find? (fun p => p.1 == c)).getD (c, [])).2

/-- pandas column assignment `df[c] = vals`: overwrite an existing column in place, else
append a new column at the end. -/
def setColumn (df : Table) (c : Str) (vals : List Str) : Table :=
  if df.any (fun p => p.1 == c) then
    df.map (fun p => if p.1 == c then (p.1, vals) else p)
  else df ++ [(c, vals)]

/-- main line 200: `df["__date"] = df[date_col].apply(normalize_date)` — the one table
write the pipeline performs. -/
def add_date_column (df : Table) (date_col : Str) : Table :=
  setColumn df ("__date").toList ((getCol df date_col).map normalize_date)

-- ==================== URL shapes and concrete witness data ====================

/-- A reference URL carrying its id in the path segment after `/d/`. -/
def urlShapeD (id : Str) : Str :=
  ("https://drive.google.com/file").toList ++ (("/d/").toList ++ (id ++ ("/view").toList))

/-- A reference URL carrying its id in a query parameter `id=`. -/
def urlShapeQuery (id : Str) : Str :=
  ("https://example.com/page?").toList ++ (("id=").toList ++ id)

/-- A reference URL of the `/uc?id=` shape. -/
def urlShapeUc (id : Str) : Str :=
  ("https://drive.google.com/uc?").toList ++ (("id=").toList ++ id)

/-- A reference URL of the `open?id=` shape. -/
def urlShapeOpen (id : Str) : Str :=
  ("https://drive.google.com/open?").toList ++ (("id=").toList ++ id)

/-- The empty filesystem. -/
def fsEmpty : FS := fun _ => none

/-- A renderer in which no overlay step fails. -/
def envNoFail : RenderEnv := ⟨fun _ => false⟩

/-- A drive on which every download raises leaving nothing behind. -/
def driveNone : DriveEnv := fun _ => DownloadOutcome.fail none

/-- A one-file filesystem used to witness `scaled_image_aspect` on a concrete input. -/
def fsAspect : FS :=
  fun p => if p = ("a.jpg").toList then some ⟨true, some (4, 2)⟩ else none

/-- A store whose submission supplied only one overall image. -/
def sdOneOverall : StoreData :=
  ⟨⟨("S1").toList, ("N").toList, ("P").toList, ("2024-01-02").toList⟩,
   [PLACEHOLDER_IMAGE], []⟩

/-- A two-file filesystem: a renamed non-image with an allow-listed extension, and a
disallowed extension. -/
def fsValidation : FS :=
  fun p =>
    if p = ("b.jpg").toList then some ⟨false, some (2, 2)⟩
    else if p = ("a.txt").toList then some ⟨true, some (2, 2)⟩
    else none

/-- A one-column table used for the C9 counterexample. -/
def dfDateOnly : Table := [(("Date").toList, [("01/02/2024").toList])]

/-- A two-column table used for the C9 witness. -/
def dfTwoCols : Table :=
  [(("Date").toList, [("01/02/2024").toList]), (("Store Name").toList, [("S1").toList])]

/-- A submission row all of whose cells are empty. -/
def rowConst : Str → CellVal := fun _ => CellVal.str []

/-- Four product columns in non-alphabetical order. -/
def prodCols4 : List Str :=
  [("B – x").toList, ("a – x").toList, ("C – x").toList, ("d – x").toList]

/-- A header with two overall-photo columns. -/
def hdr2 : List Str :=
  [("Store Name").toList, ("Overall Photo 2").toList, ("Overall Photo 1").toList]

-- ====================================================================
-- THEOREMS
-- ====================================================================

/-- Claim C5: for a source image of original pixel size `(w, h)` placed in a cell whose
bounding box is `(max_w*inch, max_h*inch)` points, `scaled_image` outputs dimensions
`(w*s, h*s)` with `s = min(max_w*inch/w, max_h*inch/h)`; the output width/height ratio
equals the original ratio and neither output dimension exceeds its bounding box. -/
theorem scaled_image_aspect (fs : FS) (p : Str) (fi : FileInfo) (w h : Nat) (max_w max_h : ℚ)
    (hp : p ≠ []) (hfs : fs p = some fi) (hsz : fi.size = some (w, h))
    (hw : 0 < w) (hh : 0 < h) (hmw : 0 < max_w) (hmh : 0 < max_h) :
    ∃ s : ℚ, s = min (max_w * inchPts / (w : ℚ)) (max_h * inchPts / (h : ℚ)) ∧
      scaled_image fs p max_w max_h true = Cell.image p ((w : ℚ) * s) ((h : ℚ) * s) ∧
      ((w : ℚ) * s) / ((h : ℚ) * s) = (w : ℚ) / (h : ℚ) ∧
      (w : ℚ) * s ≤ max_w * inchPts ∧ (h : ℚ) * s ≤ max_h * inchPts := by
  have hwq : (0 : ℚ) < (w : ℚ) := by exact_mod_cast hw
  have hhq : (0 : ℚ) < (h : ℚ) := by exact_mod_cast hh
  have hinch : (0 : ℚ) < inchPts := by norm_num [inchPts]
  refine ⟨min (max_w * inchPts / (w : ℚ)) (max_h * inchPts / (h : ℚ)), rfl, ?_, ?_, ?_, ?_⟩
  · have hpe : p.isEmpty = false := by
      cases p with
      | nil => exact absurd rfl hp
      | cons a l => rfl
    have hwz : (w == 0) = false := by simp [Nat.pos_iff_ne_zero.mp hw]
    have hhz : (h == 0) = false := by simp [Nat.pos_iff_ne_zero.mp hh]
    simp [scaled_image, hpe, hfs, hsz, hwz, hhz]
  · have hs : (0 : ℚ) < min (max_w * inchPts / (w : ℚ)) (max_h * inchPts / (h : ℚ)) := by
      apply lt_min
      · exact div_pos (mul_pos hmw hinch) hwq
      · exact div_pos (mul_pos hmh hinch) hhq
    rw [mul_div_mul_comm, div_self (ne_of_gt hs), mul_one]
  · have h1 : min (max_w * inchPts / (w : ℚ)) (max_h * inchPts / (h : ℚ))
        ≤ max_w * inchPts / (w : ℚ) := min_le_left _ _
    calc (w : ℚ) * min (max_w * inchPts / (w : ℚ)) (max_h * inchPts / (h : ℚ))
        ≤ (w : ℚ) * (max_w * inchPts / (w : ℚ)) :=
          mul_le_mul_of_nonneg_left h1 (le_of_lt hwq)
      _ = max_w * inchPts := by
          rw [mul_comm, div_mul_cancel₀ _ (ne_of_gt hwq)]
  · have h1 : min (max_w * inchPts / (w : ℚ)) (max_h * inchPts / (h : ℚ))
        ≤ max_h * inchPts / (h : ℚ) := min_le_right _ _
    calc (h : ℚ) * min (max_w * inchPts / (w : ℚ)) (max_h * inchPts / (h : ℚ))
        ≤ (h : ℚ) * (max_h * inchPts / (h : ℚ)) :=
          mul_le_mul_of_nonneg_left h1 (le_of_lt hhq)
      _ = max_h * inchPts := by
          rw [mul_comm, div_mul_cancel₀ _ (ne_of_gt hhq)]

/-- Witness for Claim C5 at a concrete 4×2 image in a concrete box. -/
theorem scaled_image_aspect_witness :
    (("a.jpg").toList ≠ ([] : Str)) ∧
    fsAspect ("a.jpg").toList = some ⟨true, some (4, 2)⟩ ∧
    (∃ s : ℚ, s = min (2 * inchPts / (4 : ℚ)) (3 * inchPts / (2 : ℚ)) ∧
      scaled_image fsAspect ("a.jpg").toList 2 3 true
        = Cell.image ("a.jpg").toList ((4 : ℚ) * s) ((2 : ℚ) * s) ∧
      ((4 : ℚ) * s) / ((2 : ℚ) * s) = (4 : ℚ) / (2 : ℚ) ∧
      (4 : ℚ) * s ≤ 2 * inchPts ∧ (2 : ℚ) * s ≤ 3 * inchPts) := by
  refine ⟨by decide, rfl, ?_⟩
  have h := scaled_image_aspect fsAspect ("a.jpg").toList ⟨true, some (4, 2)⟩ 4 2 2 3
    (by decide) rfl rfl (by norm_num) (by norm_num) (by norm_num) (by norm_num)
  exact_mod_cast h

theorem pyStrip_all_space (s : Str) (h : s.all isSpaceChar = true) : pyStrip s = [] := by
  have h1 : s.dropWhile isSpaceChar = [] := by
    rw [List.dropWhile_eq_nil_iff]
    intro x hx
    exact List.all_eq_true.mp h x hx
  simp [pyStrip, h1]

/-- Claim C8: a raw cell value that is empty, whitespace-only, or a list all of whose
elements are empty resolves immediately to the placeholder path, with no download
attempted and the filesystem untouched. -/
theorem process_image_column_empty (drive : DriveEnv) (fs : FS) (cell : CellVal) (sp : Str)
    (h : cell = CellVal.str [] ∨
         (∃ s, cell = CellVal.str s ∧ s.all isSpaceChar = true) ∨
         (∃ l, cell = CellVal.list l ∧ ∀ x ∈ l, x = ([] : Str))) :
    process_image_column drive fs cell sp = ⟨fs, PLACEHOLDER_IMAGE, false⟩ := by
  have hlink : pyStrip (normalizeCell cell) = [] := by
    rcases h with h | ⟨s, rfl, hs⟩ | ⟨l, rfl, hl⟩
    · subst h; rfl
    · exact pyStrip_all_space s hs
    · have hfind : l.find? (fun x => !x.isEmpty) = none := by
        apply List.find?_eq_none.mpr
        intro x hx
        rw [hl x hx]
        simp
      simp [normalizeCell, hfind, pyStrip]
  simp [process_image_column, hlink]

/-- Witness for Claim C8 at the empty-string cell. -/
theorem process_image_column_empty_witness :
    (CellVal.str ([] : Str) = CellVal.str [] ∨
      (∃ s, CellVal.str ([] : Str) = CellVal.str s ∧ s.all isSpaceChar = true) ∨
      (∃ l, CellVal.str ([] : Str) = CellVal.list l ∧ ∀ x ∈ l, x = ([] : Str))) ∧
    process_image_column driveNone fsEmpty (CellVal.str []) ("d.jpg").toList
      = ⟨fsEmpty, PLACEHOLDER_IMAGE, false⟩ :=
  ⟨Or.inl rfl,
   process_image_column_empty driveNone fsEmpty (CellVal.str []) (("d.jpg").toList) (Or.inl rfl)⟩

/-- Claim C2 counterexample: a download that raises after partially writing the
destination returns the placeholder, but the partially written file is NOT deleted —
it is still on disk when the call returns. -/
theorem download_error_leaves_leftover_cex :
    (download_and_validate_image (DownloadOutcome.fail (some ⟨false, none⟩)) fsEmpty
      ("x.jpg").toList).path = PLACEHOLDER_IMAGE ∧
    (download_and_validate_image (DownloadOutcome.fail (some ⟨false, none⟩)) fsEmpty
      ("x.jpg").toList).fs ("x.jpg").toList ≠ none := by
  refine ⟨rfl, ?_⟩
  intro hcontra
  simp [download_and_validate_image, updateFS] at hcontra

/-- Claim C2 amended: on a download error the resolver returns the placeholder (with
success false), but the destination file is left exactly as the failed download left it;
the destination is deleted only when a completed download fails validation (and a
validated completed download returns its own path). -/
theorem download_and_validate_behaviour (oc : DownloadOutcome) (fs : FS) (sp : Str) :
    (∀ pf, oc = DownloadOutcome.fail pf →
      (download_and_validate_image oc fs sp).path = PLACEHOLDER_IMAGE ∧
      (download_and_validate_image oc fs sp).ok = false ∧
      (download_and_validate_image oc fs sp).fs sp = pf) ∧
    (∀ fi, oc = DownloadOutcome.ok fi →
      validate_image_file (updateFS fs sp (some fi)) sp = false →
      (download_and_validate_image oc fs sp).path = PLACEHOLDER_IMAGE ∧
      (download_and_validate_image oc fs sp).fs sp = none) ∧
    (∀ fi, oc = DownloadOutcome.ok fi →
      validate_image_file (updateFS fs sp (some fi)) sp = true →
      (download_and_validate_image oc fs sp).path = sp ∧
      (download_and_validate_image oc fs sp).ok = true) := by
  refine ⟨?_, ?_, ?_⟩
  · rintro pf rfl
    refine ⟨rfl, rfl, ?_⟩
    simp [download_and_validate_image, updateFS]
  · rintro fi rfl hv
    refine ⟨?_, ?_⟩
    · simp [download_and_validate_image, hv]
    · simp [download_and_validate_image, hv, updateFS]
  · rintro fi rfl hv
    refine ⟨?_, ?_⟩
    · simp [download_and_validate_image, hv]
    · simp [download_and_validate_image, hv]

/-- Witness for Claim C2's amended statement at a concrete failing download. -/
theorem download_and_validate_behaviour_witness :
    (download_and_validate_image (DownloadOutcome.fail (some ⟨true, some (1, 1)⟩)) fsEmpty
      ("y.jpg").toList).path = PLACEHOLDER_IMAGE ∧
    (download_and_validate_image (DownloadOutcome.fail (some ⟨true, some (1, 1)⟩)) fsEmpty
      ("y.jpg").toList).fs ("y.jpg").toList = some ⟨true, some (1, 1)⟩ := by
  have h := (download_and_validate_behaviour (DownloadOutcome.fail (some ⟨true, some (1, 1)⟩))
    fsEmpty (("y.jpg").toList)).1 (some ⟨true, some (1, 1)⟩) rfl
  exact ⟨h.1, h.2.2⟩

/-- Claim C7: validation rejects any file whose (lowercased) extension is outside the
allow-list regardless of its content, and rejects any file with an allow-listed
extension that does not open and verify as a well-formed image. -/
theorem validate_image_file_rejects (fs : FS) (p : Str) :
    (VALID_IMAGE_EXTENSIONS.contains (extOf (lowerStr p)) = false →
      validate_image_file fs p = false) ∧
    (∀ fi, fs p = some fi → fi.verifies = false → validate_image_file fs p = false) := by
  constructor
  · intro hext
    unfold validate_image_file
    cases hfs : fs p with
    | none => rfl
    | some fi =>
      dsimp only
      rw [if_pos hext]
  · intro fi hfs hv
    unfold validate_image_file
    rw [hfs]
    dsimp only
    by_cases hext : VALID_IMAGE_EXTENSIONS.contains (extOf (lowerStr p)) = false
    · rw [if_pos hext]
    · rw [if_neg hext]
      exact hv

/-- Witness for Claim C7: a disallowed extension is rejected, and a renamed `.jpg` whose
bytes do not verify as an image is rejected. -/
theorem validate_image_file_rejects_witness :
    (VALID_IMAGE_EXTENSIONS.contains (extOf (lowerStr ("a.txt").toList)) = false) ∧
    validate_image_file fsValidation ("a.txt").toList = false ∧
    fsValidation ("b.jpg").toList = some ⟨false, some (2, 2)⟩ ∧
    validate_image_file fsValidation ("b.jpg").toList = false := by
  refine ⟨by decide, ?_, by decide, ?_⟩
  · exact (validate_image_file_rejects fsValidation (("a.txt").toList)).1 (by decide)
  · exact (validate_image_file_rejects fsValidation (("b.jpg").toList)).2
      ⟨false, some (2, 2)⟩ (by decide) rfl

theorem isPrefixOf_append_self (l r : Str) : l.isPrefixOf (l ++ r) = true := by
  induction l with
  | nil =>
    cases r with
    | nil => rfl
    | cons a as => rfl
  | cons c cs ih => simp [List.isPrefixOf, ih]

theorem takeWhile_all_eq (p : Char → Bool) (l : Str) (h : l.all p = true) :
    List.takeWhile p l = l := by
  induction l with
  | nil => rfl
  | cons c cs ih =>
    simp only [List.all_cons, Bool.and_eq_true] at h
    simp [List.takeWhile_cons, h.1, ih h.2]

theorem takeWhile_append_stop (p : Char → Bool) (l : Str) (c : Char) (cs : Str)
    (hall : l.all p = true) (hc : p c = false) :
    List.takeWhile p (l ++ c :: cs) = l := by
  induction l with
  | nil => simp [List.takeWhile_cons, hc]
  | cons d ds ih =>
    simp only [List.all_cons, Bool.and_eq_true] at hall
    simp [List.takeWhile_cons, hall.1, ih hall.2]

theorem all_of_isPrefixOf (p : Char → Bool) :
    ∀ (l t : Str), l.isPrefixOf t = true → t.all p = true → l.all p = true
  | [], _, _, _ => rfl
  | a :: as, [], h, _ => by simp [List.isPrefixOf] at h
  | a :: as, b :: bs, h, ht => by
    simp only [List.isPrefixOf, Bool.and_eq_true, beq_iff_eq] at h
    simp only [List.all_cons, Bool.and_eq_true] at ht ⊢
    refine ⟨by rw [h.1]; exact ht.1, all_of_isPrefixOf p as bs h.2 ht.2⟩

theorem searchPat_found (lit rest : Str) (hlit : lit ≠ [])
    (hne : List.takeWhile isIdChar rest ≠ []) :
    searchPat lit (lit ++ rest) = some (List.takeWhile isIdChar rest) := by
  cases lit with
  | nil => exact absurd rfl hlit
  | cons c cs =>
    have h1 : (c :: cs).isPrefixOf (c :: (cs ++ rest)) = true :=
      isPrefixOf_append_self (c :: cs) rest
    have h2 : List.drop (c :: cs).length (c :: (cs ++ rest)) = rest := by
      simp [List.drop_left]
    have h3 : (List.takeWhile isIdChar rest).isEmpty = false := by
      cases htw : List.takeWhile isIdChar rest with
      | nil => exact absurd htw hne
      | cons a l => rfl
    show searchPat (c :: cs) (c :: (cs ++ rest)) = _
    rw [searchPat]
    simp [h1, h2, h3]

theorem searchPat_none (lit : Str) (hlit : lit.all isIdChar = false) :
    ∀ s : Str, s.all isIdChar = true → searchPat lit s = none := by
  intro s
  induction s with
  | nil => intro _; rfl
  | cons c cs ih =>
    intro hs
    have hpre : lit.isPrefixOf (c :: cs) = false := by
      rcases Bool.eq_false_or_eq_true (lit.isPrefixOf (c :: cs)) with h | h
      · have hall2 := all_of_isPrefixOf isIdChar lit (c :: cs) h hs
        rw [hall2] at hlit
        exact absurd hlit (by simp)
      · exact h
    have hcs : cs.all isIdChar = true := by
      simp only [List.all_cons, Bool.and_eq_true] at hs
      exact hs.2
    rw [searchPat, hpre]
    simpa using ih hcs

/-- Claim C6: the four recognised URL shapes carrying the same identifier all extract
that identifier (the patterns are tried in a fixed order and the first match wins, as the
concrete mixed-shape input shows); a non-empty value from which no pattern extracts an id
resolves to the placeholder with no download attempted. -/
theorem extract_file_id_shapes (id : Str) (hne : id ≠ []) (hall : id.all isIdChar = true) :
    extract_file_id (urlShapeD id) = some id ∧
    extract_file_id (urlShapeQuery id) = some id ∧
    extract_file_id (urlShapeUc id) = some id ∧
    extract_file_id (urlShapeOpen id) = some id ∧
    extract_file_id (("/d/abc?id=xyz").toList) = some ("abc").toList ∧
    (∀ (drive : DriveEnv) (fs : FS) (cell : CellVal) (sp : Str),
      pyStrip (normalizeCell cell) ≠ [] →
      extract_file_id (pyStrip (normalizeCell cell)) = none →
      process_image_column drive fs cell sp = ⟨fs, PLACEHOLDER_IMAGE, false⟩) := by
  have hidtw : List.takeWhile isIdChar id = id := takeWhile_all_eq _ _ hall
  have hidne : List.takeWhile isIdChar id ≠ [] := by rw [hidtw]; exact hne
  have hlitD : (("/d/").toList).all isIdChar = false := by decide
  refine ⟨?_, ?_, ?_, ?_, by decide, ?_⟩
  · have hjump : searchPat ("/d/").toList (urlShapeD id)
        = searchPat ("/d/").toList (("/d/").toList ++ (id ++ ("/view").toList)) := rfl
    have htw : List.takeWhile isIdChar (id ++ ("/view").toList) = id := by
      have h := takeWhile_append_stop isIdChar id '/' (("view").toList) hall (by decide)
      simpa using h
    have hfound := searchPat_found ("/d/").toList (id ++ ("/view").toList) (by decide)
      (by rw [htw]; exact hne)
    rw [htw] at hfound
    have hemp : (urlShapeD id).isEmpty = false := rfl
    simp only [extract_file_id, hemp, hjump, hfound]
    simp
  · have hj1 : searchPat ("/d/").toList (urlShapeQuery id) = searchPat ("/d/").toList id := rfl
    have hn1 : searchPat ("/d/").toList id = none := searchPat_none _ hlitD id hall
    have hj2 : searchPat ("id=").toList (urlShapeQuery id)
        = searchPat ("id=").toList (("id=").toList ++ id) := rfl
    have hfound2 := searchPat_found ("id=").toList id (by decide) hidne
    rw [hidtw] at hfound2
    have hemp : (urlShapeQuery id).isEmpty = false := rfl
    simp only [extract_file_id, hemp, hj1, hn1, hj2, hfound2]
    simp
  · have hj1 : searchPat ("/d/").toList (urlShapeUc id) = searchPat ("/d/").toList id := rfl
    have hn1 : searchPat ("/d/").toList id = none := searchPat_none _ hlitD id hall
    have hj2 : searchPat ("id=").toList (urlShapeUc id)
        = searchPat ("id=").toList (("id=").toList ++ id) := rfl
    have hfound2 := searchPat_found ("id=").toList id (by decide) hidne
    rw [hidtw] at hfound2
    have hemp : (urlShapeUc id).isEmpty = false := rfl
    simp only [extract_file_id, hemp, hj1, hn1, hj2, hfound2]
    simp
  · have hj1 : searchPat ("/d/").toList (urlShapeOpen id) = searchPat ("/d/").toList id := rfl
    have hn1 : searchPat ("/d/").toList id = none := searchPat_none _ hlitD id hall
    have hj2 : searchPat ("id=").toList (urlShapeOpen id)
        = searchPat ("id=").toList (("id=").toList ++ id) := rfl
    have hfound2 := searchPat_found ("id=").toList id (by decide) hidne
    rw [hidtw] at hfound2
    have hemp : (urlShapeOpen id).isEmpty = false := rfl
    simp only [extract_file_id, hemp, hj1, hn1, hj2, hfound2]
    simp
  · intro drive fs cell sp hne2 hnone
    have hemp2 : (pyStrip (normalizeCell cell)).isEmpty = false := by
      cases h : pyStrip (normalizeCell cell) with
      | nil => exact absurd h hne2
      | cons a l => rfl
    unfold process_image_column
    simp [hemp2, hnone]

/-- Witness for Claim C6 at the concrete identifier `abc123`. -/
theorem extract_file_id_shapes_witness :
    ((("abc123").toList ≠ ([] : Str)) ∧ (("abc123").toList).all isIdChar = true) ∧
    extract_file_id (urlShapeD ("abc123").toList) = some ("abc123").toList ∧
    extract_file_id (urlShapeQuery ("abc123").toList) = some ("abc123").toList := by
  have h := extract_file_id_shapes (("abc123").toList) (by decide) (by decide)
  exact ⟨⟨by decide, by decide⟩, h.1, h.2.1⟩

/-- Claim C1 (failing input): a store that supplied a single overall image gets NO
overall block at all — the guard `if overall_images and len(overall_images) >= 2`
(pdf_generator line 214) omits the whole block instead of emitting a two-column row with
one empty cell, even though the loop below it carries an (unreachable) empty-cell
branch for exactly that case. -/
theorem overall_block_omitted_single_image :
    sdOneOverall.overall_images.length = 1 ∧
    (storeElements envNoFail ("tmp").toList fsEmpty sdOneOverall).2.countP Element.isTable
      = 0 := by
  constructor
  · rfl
  · decide

/-- Claim C3 counterexample: when `doc.build(elements)` raises, the exception propagates
and the overlay working-directory cleanup is never attempted — cleanup does not run on
this exit path. -/
theorem cleanup_skipped_on_build_error_cex :
    (generate_daily_report_run ⟨true, false⟩ envNoFail fsEmpty ("tmp").toList
      []).cleanupAttempted = false ∧
    (generate_daily_report_run ⟨true, false⟩ envNoFail fsEmpty ("tmp").toList
      []).raised = true :=
  ⟨rfl, rfl⟩

/-- Claim C3 amended: cleanup of the shared overlay directory is attempted exactly when
`doc.build` completes — regardless of the render environment and of whether cleanup
itself fails — a cleanup failure is never propagated (the call raises iff the build
raised), and the directory is removed iff the build succeeded and `rmtree` did not
fail. If building the document raises, cleanup is skipped. -/
theorem generate_report_cleanup (benv : BuildEnv) (env : RenderEnv) (fs : FS)
    (temp_dir : Str) (stores : List StoreData) :
    (generate_daily_report_run benv env fs temp_dir stores).cleanupAttempted
      = !benv.buildRaises ∧
    (generate_daily_report_run benv env fs temp_dir stores).raised = benv.buildRaises ∧
    (generate_daily_report_run benv env fs temp_dir stores).tempDirRemoved
      = (!benv.buildRaises && !benv.cleanupRaises) := by
  cases hb : benv.buildRaises with
  | false => simp [generate_daily_report_run, hb]
  | true => simp [generate_daily_report_run, hb]

theorem lexLe_trans : ∀ a b c : Str, lexLe a b = true → lexLe b c = true → lexLe a c = true
  | [], _, c, _, _ => by
    cases c with
    | nil => rfl
    | cons x xs => rfl
  | a :: as, [], _, hab, _ => by simp [lexLe] at hab
  | _ :: _, _ :: _, [], _, hbc => by simp [lexLe] at hbc
  | a :: as, b :: bs, c :: cs, hab, hbc => by
    simp only [lexLe] at hab hbc ⊢
    split_ifs at hab hbc ⊢ <;>
      first
        | rfl
        | omega
        | exact lexLe_trans as bs cs hab hbc

theorem lexLe_total : ∀ a b : Str, (lexLe a b || lexLe b a) = true
  | [], _ => by simp [lexLe]
  | _ :: _, [] => by simp [lexLe]
  | a :: as, b :: bs => by
    simp only [lexLe]
    by_cases h1 : a.toNat < b.toNat
    · simp [h1]
    · by_cases h2 : b.toNat < a.toNat
      · simp [h1, h2]
      · simpa [h1, h2] using lexLe_total as bs

theorem prodLe_trans (a b c : Str × Str) (h1 : prodLe a b = true) (h2 : prodLe b c = true) :
    prodLe a c = true :=
  lexLe_trans _ _ _ h1 h2

theorem prodLe_total (a b : Str × Str) : (prodLe a b || prodLe b a) = true :=
  lexLe_total _ _

theorem chunkRows_length {α : Type} (pad : α) :
    ∀ (l cur : List α), cur.length ≤ 2 →
      (chunkRows pad l cur).length = (cur.length + l.length + 2) / 3
  | [], cur, hc => by
    cases cur with
    | nil => simp [chunkRows]
    | cons x xs =>
      have hic : ((x :: xs) : List α).isEmpty = false := rfl
      simp only [chunkRows, hic, Bool.false_eq_true, if_false, List.length_singleton,
        List.length_cons, List.length_nil]
      simp only [List.length_cons] at hc
      omega
  | x :: xs, cur, hc => by
    simp only [chunkRows, List.length_cons]
    by_cases h3 : (cur ++ [x]).length = 3
    · rw [if_pos h3]
      have hrec := chunkRows_length pad xs [] (by simp)
      simp only [List.length_nil] at hrec
      simp only [List.length_cons, hrec]
      simp only [List.length_append, List.length_singleton] at h3
      omega
    · rw [if_neg h3]
      have hcle : (cur ++ [x]).length ≤ 2 := by
        simp only [List.length_append, List.length_singleton] at h3 ⊢
        omega
      have hrec := chunkRows_length pad xs (cur ++ [x]) hcle
      rw [hrec]
      simp only [List.length_append, List.length_singleton]
      omega

theorem chunkRows_rows {α : Type} (pad : α) :
    ∀ (l cur : List α), cur.length ≤ 2 →
      ∀ r ∈ chunkRows pad l cur, r.length = 3
  | [], cur, hc => by
    cases cur with
    | nil => intro r hr; simp [chunkRows] at hr
    | cons x xs =>
      intro r hr
      have hic : ((x :: xs) : List α).isEmpty = false := rfl
      simp only [chunkRows, hic, Bool.false_eq_true, if_false, List.mem_singleton] at hr
      subst hr
      simp only [List.length_append, List.length_replicate, List.length_cons] at hc ⊢
      omega
  | x :: xs, cur, hc => by
    intro r hr
    simp only [chunkRows] at hr
    by_cases h3 : (cur ++ [x]).length = 3
    · rw [if_pos h3] at hr
      rcases List.mem_cons.mp hr with rfl | hr
      · exact h3
      · exact chunkRows_rows pad xs [] (by simp) r hr
    · rw [if_neg h3] at hr
      have hcle : (cur ++ [x]).length ≤ 2 := by
        simp only [List.length_append, List.length_singleton] at h3 ⊢
        omega
      exact chunkRows_rows pad xs (cur ++ [x]) hcle r hr

theorem chunkRows_flatten {α : Type} (pad : α) :
    ∀ (l cur : List α), ∃ k, (chunkRows pad l cur).flatten = cur ++ l ++ List.replicate k pad
  | [], cur => by
    cases cur with
    | nil => exact ⟨0, by simp [chunkRows]⟩
    | cons x xs =>
      have hic : ((x :: xs) : List α).isEmpty = false := rfl
      refine ⟨3 - (x :: xs).length, ?_⟩
      simp [chunkRows, hic]
  | x :: xs, cur => by
    simp only [chunkRows]
    by_cases h3 : (cur ++ [x]).length = 3
    · rw [if_pos h3]
      rcases chunkRows_flatten pad xs [] with ⟨k, hk⟩
      refine ⟨k, ?_⟩
      simp only [List.flatten_cons, hk]
      simp
    · rw [if_neg h3]
      rcases chunkRows_flatten pad xs (cur ++ [x]) with ⟨k, hk⟩
      refine ⟨k, ?_⟩
      rw [hk]
      simp

theorem productCells_length (env : RenderEnv) (temp_dir : Str) :
    ∀ (fs : FS) (l : List (Str × Str)),
      (productCells env temp_dir fs l).2.length = l.length
  | _, [] => rfl
  | fs, (n, p) :: rest => by
    simp only [productCells, List.length_cons]
    rw [productCells_length env temp_dir _ rest]

/-- Claim C4: the product images returned by process_store_images are sorted
case-insensitively by label whatever the source column order (and are a permutation of
the per-column results); laying out the N product cells yields exactly `(N+2)/3 = ceil(N/3)`
rows, every row has exactly 3 cells, and the flattened grid is the cell sequence in order
followed only by padding cells. -/
theorem product_grid_properties (env : RenderEnv) (temp_dir : Str) (drive : DriveEnv)
    (row : Str → CellVal) (store_dir : Str) (fs fs2 : FS)
    (overall_columns product_columns : List Str) :
    List.Pairwise (fun a b => prodLe a b = true)
      (process_store_images drive row store_dir fs overall_columns product_columns).2.2 ∧
    ((process_store_images drive row store_dir fs overall_columns product_columns).2.2).Perm
      (processProducts drive row store_dir
        (processOverall drive row store_dir fs 1 overall_columns).1 product_columns).2 ∧
    (chunkRows Cell.blank
        (productCells env temp_dir fs2
          (process_store_images drive row store_dir fs overall_columns product_columns).2.2).2
        []).length
      = ((process_store_images drive row store_dir fs overall_columns
            product_columns).2.2.length + 2) / 3 ∧
    (∀ r ∈ chunkRows Cell.blank
        (productCells env temp_dir fs2
          (process_store_images drive row store_dir fs overall_columns product_columns).2.2).2
        [], r.length = 3) ∧
    (∃ k, (chunkRows Cell.blank
        (productCells env temp_dir fs2
          (process_store_images drive row store_dir fs overall_columns product_columns).2.2).2
        []).flatten
      = (productCells env temp_dir fs2
          (process_store_images drive row store_dir fs overall_columns
            product_columns).2.2).2 ++ List.replicate k Cell.blank) := by
  refine ⟨?_, ?_, ?_, ?_, ?_⟩
  · exact List.sorted_mergeSort (fun a b c => prodLe_trans a b c)
      (fun a b => prodLe_total a b) _
  · exact List.mergeSort_perm _ prodLe
  · rw [chunkRows_length Cell.blank _ [] (by simp)]
    rw [productCells_length]
    simp
  · exact chunkRows_rows Cell.blank _ [] (by simp)
  · simpa using chunkRows_flatten Cell.blank
      (productCells env temp_dir fs2
        (process_store_images drive row store_dir fs overall_columns
          product_columns).2.2).2 []

/-- Witness for Claim C4 on four concrete product columns: four products give two grid
rows, the labels come out sorted, and every row has three cells. -/
theorem product_grid_properties_witness :
    (chunkRows Cell.blank
      (productCells envNoFail ("tmp").toList fsEmpty
        (process_store_images driveNone rowConst ("s").toList fsEmpty []
          prodCols4).2.2).2 []).length = 2 ∧
    List.Pairwise (fun a b => prodLe a b = true)
      (process_store_images driveNone rowConst ("s").toList fsEmpty [] prodCols4).2.2 := by
  have h := product_grid_properties envNoFail ("tmp").toList driveNone rowConst
    ("s").toList fsEmpty fsEmpty [] prodCols4
  refine ⟨?_, h.1⟩
  rw [h.2.2.1]
  have hlen : (process_store_images driveNone rowConst ("s").toList fsEmpty []
      prodCols4).2.2.length
      = ((processProducts driveNone rowConst ("s").toList
          (processOverall driveNone rowConst ("s").toList fsEmpty 1 []).1 prodCols4).2).length :=
    (List.mergeSort_perm _ prodLe).length_eq
  rw [hlen]
  decide

theorem validate_updateFS_indep (fs g : FS) (p : Str) (fi : FileInfo) :
    validate_image_file (updateFS fs p (some fi)) p
      = validate_image_file (updateFS g p (some fi)) p := by
  simp [validate_image_file, updateFS]

theorem download_and_validate_success (oc : DownloadOutcome) (fs : FS) (sp : Str) :
    (download_and_validate_image oc fs sp).path = PLACEHOLDER_IMAGE ∨
    ((download_and_validate_image oc fs sp).path = sp ∧
     ∃ fi, oc = DownloadOutcome.ok fi ∧
       validate_image_file (updateFS fs sp (some fi)) sp = true) := by
  cases oc with
  | fail leftover => exact Or.inl rfl
  | ok fi =>
    by_cases hv : validate_image_file (updateFS fs sp (some fi)) sp = true
    · right
      constructor
      · simp [download_and_validate_image, hv]
      · exact ⟨fi, rfl, hv⟩
    · left
      have hv2 : validate_image_file (updateFS fs sp (some fi)) sp = false :=
        Bool.eq_false_iff.mpr hv
      simp [download_and_validate_image, hv2]

theorem process_image_column_spec (drive : DriveEnv) (fs : FS) (cell : CellVal) (sp : Str) :
    (process_image_column drive fs cell sp).path = PLACEHOLDER_IMAGE ∨
    ((process_image_column drive fs cell sp).path = sp ∧
     ∃ fid fi, extract_file_id (pyStrip (normalizeCell cell)) = some fid ∧
       drive fid = DownloadOutcome.ok fi ∧
       validate_image_file (updateFS fs sp (some fi)) sp = true) := by
  by_cases he : (pyStrip (normalizeCell cell)).isEmpty = true
  · left
    simp [process_image_column, he]
  · have he2 : (pyStrip (normalizeCell cell)).isEmpty = false := Bool.eq_false_iff.mpr he
    cases hx : extract_file_id (pyStrip (normalizeCell cell)) with
    | none =>
      left
      simp [process_image_column, he2, hx]
    | some fid =>
      have hres : (process_image_column drive fs cell sp).path
          = (download_and_validate_image (drive fid) fs sp).path := by
        simp [process_image_column, he2, hx]
      rcases download_and_validate_success (drive fid) fs sp with hpl | ⟨hsp, fi, hoc, hv⟩
      · left
        rw [hres]
        exact hpl
      · right
        refine ⟨?_, fid, fi, rfl, hoc, hv⟩
        rw [hres]
        exact hsp

theorem process_image_column_path_fs (drive : DriveEnv) (fs g : FS) (cell : CellVal)
    (sp : Str) :
    (process_image_column drive fs cell sp).path
      = (process_image_column drive g cell sp).path := by
  by_cases he : (pyStrip (normalizeCell cell)).isEmpty = true
  · simp [process_image_column, he]
  · have he2 : (pyStrip (normalizeCell cell)).isEmpty = false := Bool.eq_false_iff.mpr he
    cases hx : extract_file_id (pyStrip (normalizeCell cell)) with
    | none => simp [process_image_column, he2, hx]
    | some fid =>
      have h1 : (process_image_column drive fs cell sp).path
          = (download_and_validate_image (drive fid) fs sp).path := by
        simp [process_image_column, he2, hx]
      have h2 : (process_image_column drive g cell sp).path
          = (download_and_validate_image (drive fid) g sp).path := by
        simp [process_image_column, he2, hx]
      rw [h1, h2]
      cases hoc : drive fid with
      | fail leftover => rfl
      | ok fi =>
        have hveq := validate_updateFS_indep fs g sp fi
        by_cases hv : validate_image_file (updateFS fs sp (some fi)) sp = true
        · have hvg : validate_image_file (updateFS g sp (some fi)) sp = true := by
            rw [← hveq]
            exact hv
          simp [download_and_validate_image, hv, hvg]
        · have hvf : validate_image_file (updateFS fs sp (some fi)) sp = false :=
            Bool.eq_false_iff.mpr hv
          have hvgf : validate_image_file (updateFS g sp (some fi)) sp = false := by
            rw [← hveq]
            exact hvf
          simp [download_and_validate_image, hvf, hvgf]

theorem process_image_column_validated (drive : DriveEnv) (fs : FS) (cell : CellVal)
    (sp : Str) :
    (process_image_column drive fs cell sp).path = PLACEHOLDER_IMAGE ∨
    ∃ fid fi, drive fid = DownloadOutcome.ok fi ∧
      validate_image_file
        (updateFS fsEmpty ((process_image_column drive fs cell sp).path) (some fi))
        ((process_image_column drive fs cell sp).path) = true := by
  rcases process_image_column_spec drive fs cell sp with h | ⟨hsp, fid, fi, hx, hoc, hv⟩
  · exact Or.inl h
  · right
    refine ⟨fid, fi, hoc, ?_⟩
    rw [hsp]
    rw [← validate_updateFS_indep fs fsEmpty sp fi]
    exact hv

theorem processOverall_spec (drive : DriveEnv) (row : Str → CellVal) (store_dir : Str) :
    ∀ (cols : List Str) (fs : FS) (idx : Nat),
      (processOverall drive row store_dir fs idx cols).2.length = cols.length ∧
      (processOverall drive row store_dir fs idx cols).2
        = (List.enumFrom idx cols).map (fun pr =>
            (process_image_column drive fsEmpty (row pr.2)
              (pathJoin store_dir
                (("Overall_").toList ++ natDigits pr.1 ++ (".jpg").toList))).path) ∧
      ∀ p ∈ (processOverall drive row store_dir fs idx cols).2,
        p = PLACEHOLDER_IMAGE ∨
        ∃ fid fi, drive fid = DownloadOutcome.ok fi ∧
          validate_image_file (updateFS fsEmpty p (some fi)) p = true
  | [], fs, idx => by
    refine ⟨rfl, rfl, ?_⟩
    intro p hp
    simp [processOverall] at hp
  | col :: cols, fs, idx => by
    have ih := processOverall_spec drive row store_dir cols
      (process_image_column drive fs (row col)
        (pathJoin store_dir (("Overall_").toList ++ natDigits idx ++ (".jpg").toList))).fs
      (idx + 1)
    refine ⟨?_, ?_, ?_⟩
    · simp only [processOverall, List.length_cons]
      rw [ih.1]
    · have hhead := process_image_column_path_fs drive fs fsEmpty (row col)
        (pathJoin store_dir (("Overall_").toList ++ natDigits idx ++ (".jpg").toList))
      simp only [processOverall, List.enumFrom, List.map_cons]
      rw [hhead, ih.2.1]
    · intro p hp
      simp only [processOverall, List.mem_cons] at hp
      rcases hp with rfl | hp
      · exact process_image_column_validated drive fs (row col) _
      · exact ih.2.2 p hp

theorem processProducts_spec (drive : DriveEnv) (row : Str → CellVal) (store_dir : Str) :
    ∀ (cols : List Str) (fs : FS),
      (processProducts drive row store_dir fs cols).2.length = cols.length ∧
      (processProducts drive row store_dir fs cols).2
        = cols.map (fun col =>
            (extract_product_name col,
             (process_image_column drive fsEmpty (row col)
               (pathJoin store_dir (extract_product_name col ++ (".jpg").toList))).path)) ∧
      (processProducts drive row store_dir fs cols).2.map Prod.fst
        = cols.map extract_product_name ∧
      ∀ pr ∈ (processProducts drive row store_dir fs cols).2,
        pr.2 = PLACEHOLDER_IMAGE ∨
        ∃ fid fi, drive fid = DownloadOutcome.ok fi ∧
          validate_image_file (updateFS fsEmpty pr.2 (some fi)) pr.2 = true
  | [], fs => by
    refine ⟨rfl, rfl, rfl, ?_⟩
    intro pr hpr
    simp [processProducts] at hpr
  | col :: cols, fs => by
    have ih := processProducts_spec drive row store_dir cols
      (process_image_column drive fs (row col)
        (pathJoin store_dir (extract_product_name col ++ (".jpg").toList))).fs
    refine ⟨?_, ?_, ?_, ?_⟩
    · simp only [processProducts, List.length_cons]
      rw [ih.1]
    · have hhead := process_image_column_path_fs drive fs fsEmpty (row col)
        (pathJoin store_dir (extract_product_name col ++ (".jpg").toList))
      simp only [processProducts, List.map_cons]
      rw [hhead, ih.2.1]
    · simp only [processProducts, List.map_cons]
      rw [ih.2.2.1]
    · intro pr hpr
      simp only [processProducts, List.mem_cons] at hpr
      rcases hpr with rfl | hpr
      · exact process_image_column_validated drive fs (row col) _
      · exact ih.2.2.2 pr hpr

/-- Claim C10: processing a store returns exactly one overall entry per overall column —
positionally, the entry for the column numbered `i` (the columns case-insensitively
sorted, as main computes them) is the resolver's result at its own `Overall_<i>.jpg`
destination — and exactly one `(label, path)` entry per product column (the sorted
product list is a permutation of the per-column `(product name, resolver result)` pairs,
so the labels are a permutation of the product names); the resolver's returned path does
not depend on the starting filesystem, and it is either the placeholder or genuinely
downloaded-and-validated: the destination path itself, after the drive delivered content
for the id extracted from that cell which the code's `validate_image_file` accepted at
the destination. In particular a per-image failure never drops an entry or shortens
either list. -/
theorem process_store_images_complete (drive : DriveEnv) (row : Str → CellVal)
    (store_dir : Str) (fs : FS) (header product_columns : List Str) :
    (process_store_images drive row store_dir fs (overall_columns_of header)
        product_columns).2.1.length = (overall_columns_of header).length ∧
    List.Pairwise (fun a b => lexLe (lowerStr a) (lowerStr b) = true)
      (overall_columns_of header) ∧
    (process_store_images drive row store_dir fs (overall_columns_of header)
        product_columns).2.2.length = product_columns.length ∧
    (process_store_images drive row store_dir fs (overall_columns_of header)
        product_columns).2.1
      = (List.enumFrom 1 (overall_columns_of header)).map (fun pr =>
          (process_image_column drive fsEmpty (row pr.2)
            (pathJoin store_dir
              (("Overall_").toList ++ natDigits pr.1 ++ (".jpg").toList))).path) ∧
    ((process_store_images drive row store_dir fs (overall_columns_of header)
        product_columns).2.2).Perm
      (product_columns.map (fun col =>
        (extract_product_name col,
         (process_image_column drive fsEmpty (row col)
           (pathJoin store_dir (extract_product_name col ++ (".jpg").toList))).path))) ∧
    ((process_store_images drive row store_dir fs (overall_columns_of header)
        product_columns).2.2.map Prod.fst).Perm
      (product_columns.map extract_product_name) ∧
    (∀ (cell : CellVal) (sp : Str),
      (process_image_column drive fsEmpty cell sp).path = PLACEHOLDER_IMAGE ∨
      ((process_image_column drive fsEmpty cell sp).path = sp ∧
       ∃ fid fi, extract_file_id (pyStrip (normalizeCell cell)) = some fid ∧
         drive fid = DownloadOutcome.ok fi ∧
         validate_image_file (updateFS fsEmpty sp (some fi)) sp = true)) ∧
    (∀ p ∈ (process_store_images drive row store_dir fs (overall_columns_of header)
        product_columns).2.1,
      p = PLACEHOLDER_IMAGE ∨
      ∃ fid fi, drive fid = DownloadOutcome.ok fi ∧
        validate_image_file (updateFS fsEmpty p (some fi)) p = true) ∧
    (∀ pr ∈ (process_store_images drive row store_dir fs (overall_columns_of header)
        product_columns).2.2,
      pr.2 = PLACEHOLDER_IMAGE ∨
      ∃ fid fi, drive fid = DownloadOutcome.ok fi ∧
        validate_image_file (updateFS fsEmpty pr.2 (some fi)) pr.2 = true) := by
  have hov := processOverall_spec drive row store_dir (overall_columns_of header) fs 1
  have hpr := processProducts_spec drive row store_dir product_columns
    (processOverall drive row store_dir fs 1 (overall_columns_of header)).1
  have hperm : ((process_store_images drive row store_dir fs (overall_columns_of header)
      product_columns).2.2).Perm
      (processProducts drive row store_dir
        (processOverall drive row store_dir fs 1 (overall_columns_of header)).1
        product_columns).2 :=
    List.mergeSort_perm _ prodLe
  refine ⟨hov.1, ?_, ?_, hov.2.1, ?_, ?_, ?_, hov.2.2, ?_⟩
  · exact List.sorted_mergeSort
      (fun a b c hab hbc => lexLe_trans (lowerStr a) (lowerStr b) (lowerStr c) hab hbc)
      (fun a b => lexLe_total (lowerStr a) (lowerStr b)) _
  · rw [hperm.length_eq]
    exact hpr.1
  · have hpairs := hperm
    rw [hpr.2.1] at hpairs
    exact hpairs
  · have hmap := hperm.map Prod.fst
    rw [hpr.2.2.1] at hmap
    exact hmap
  · intro cell sp
    exact process_image_column_spec drive fsEmpty cell sp
  · intro pr hmem
    exact hpr.2.2.2 pr (hperm.mem_iff.mp hmem)

/-- Witness for Claim C10: with the concrete two-overall-column header, both the sorted
overall column list and the returned overall image list have exactly two entries; and on
the all-downloads-fail drive, every product entry of the run is the placeholder (showing
the validated-or-placeholder disjunction has force: no allow-listed path can satisfy the
validated side without a successful download). -/
theorem process_store_images_complete_witness :
    (overall_columns_of hdr2).length = 2 ∧
    (process_store_images driveNone rowConst ("s").toList fsEmpty
      (overall_columns_of hdr2) prodCols4).2.1.length = 2 ∧
    (∀ pr ∈ (process_store_images driveNone rowConst ("s").toList fsEmpty
        (overall_columns_of hdr2) prodCols4).2.2,
      pr.2 = PLACEHOLDER_IMAGE) := by
  have h := process_store_images_complete driveNone rowConst ("s").toList fsEmpty hdr2
    prodCols4
  have hl : (overall_columns_of hdr2).length = 2 := by
    unfold overall_columns_of
    rw [(List.mergeSort_perm _ _).length_eq]
    decide
  refine ⟨hl, ?_, ?_⟩
  · rw [h.1]
    exact hl
  · intro pr hmem
    rcases h.2.2.2.2.2.2.2.2 pr hmem with hpl | ⟨fid, fi, hoc, _⟩
    · exact hpl
    · exact absurd hoc (by simp [driveNone])

/-- Claim C9 counterexample: the filtering step mutates the table — line 200 of main
(`df["__date"] = df[date_col].apply(normalize_date)`) adds a `__date` column, so the
table's column list after the step differs from the one read from the source. -/
theorem add_date_column_mutates_cex :
    tableCols (add_date_column dfDateOnly ("Date").toList) ≠ tableCols dfDateOnly := by
  decide

/-- Claim C9 amended: the pipeline never modifies any column read from the source — every
original column name keeps its exact cell values — but it is not fully mutation-free: the
date-normalisation step appends one derived `__date` column to the table (assuming, as
for any real form sheet, that no source column is already named `__date`). -/
theorem add_date_column_preserves (df : Table) (date_col : Str)
    (h : (("__date").toList) ∉ tableCols df) :
    tableCols (add_date_column df date_col) = tableCols df ++ [("__date").toList] ∧
    ∀ c ∈ tableCols df, getCol (add_date_column df date_col) c = getCol df c := by
  have hany : (df.any (fun p => p.1 == ("__date").toList)) = false := by
    rw [List.any_eq_false]
    intro p hp
    simp only [beq_iff_eq]
    intro hcontra
    exact h (by rw [← hcontra]; exact List.mem_map_of_mem Prod.fst hp)
  constructor
  · unfold add_date_column setColumn
    rw [if_neg (by intro hc; rw [hany] at hc; exact Bool.noConfusion hc)]
    simp [tableCols]
  · intro c hc
    have hfind : (df.find? (fun p => p.1 == c)).isSome := by
      rw [List.find?_isSome]
      rcases List.mem_map.mp hc with ⟨p, hp, rfl⟩
      exact ⟨p, hp, by simp⟩
    unfold add_date_column setColumn
    simp only [hany, Bool.false_eq_true, if_false]
    unfold getCol
    rw [List.find?_append]
    cases hfs : df.find? (fun p => p.1 == c) with
    | none =>
      rw [hfs] at hfind
      simp at hfind
    | some q => simp [hfs]

/-- Witness for Claim C9's amended statement on a concrete two-column table. -/
theorem add_date_column_preserves_witness :
    ((("__date").toList) ∉ tableCols dfTwoCols) ∧
    tableCols (add_date_column dfTwoCols ("Date").toList)
      = tableCols dfTwoCols ++ [("__date").toList] := by
  refine ⟨by decide, ?_⟩
  exact (add_date_column_preserves dfTwoCols (("Date").toList) (by decide)).1
